import Mathlib

/-!
Verification of the NDBC standard-meteorological-data tools (`ndbc-data-rust`).

This file gives a shallow embedding of the two Rust source files:

* `src/lib.rs` — the library variant: `NdbcData::fetch_station_metadata`
  (XML scan building the station → position map) and the free function
  `parse_std_met_to_df` (feed text → Polars DataFrame);
* `src/main.rs` — the binary variant with its own `parse_std_met_to_df`.

Strings are modelled as `List Char`; a text feed is a `String`.  Rust `f64`
values that can arise from `str::parse::<f64>()` are modelled by `FloatVal`
(finite values carried exactly as rationals — the NDBC tokens are short
decimals, and both variants parse every token with the same routine, so exact
rational values are faithful for all equality comparisons made here).  The
Polars `DataFrame` is modelled by `DF`: either the empty frame
(`DataFrame::empty()`) or a time column plus named value columns.  The cast of
the time column to `Datetime[ms]` in `main.rs` is type metadata on the same
`i64` payload and is not modelled separately.
-/

/-- Rust `char::is_whitespace` on the ASCII subset that occurs in NDBC feeds. -/
def isWs (c : Char) : Bool :=
  c = ' ' || c = '\t' || c = '\r' || c = '\n'

/-- Rust `str::trim_start` (drop leading whitespace). -/
def trimStart (l : List Char) : List Char :=
  l.dropWhile isWs

/-- Rust `str::trim` (drop leading and trailing whitespace). -/
def rustTrim (l : List Char) : List Char :=
  ((trimStart l).reverse.dropWhile isWs).reverse

/-- Helper for `rustLines`: accumulate the current line (reversed) and split
at each newline, stripping a carriage return that directly precedes it. -/
def rustLinesAux : List Char → List Char → List (List Char)
  | [], acc => if acc = [] then [] else [acc.reverse]
  | '\n' :: cs, acc =>
      let line := acc.reverse
      let line := if line.getLast? = some '\r' then line.dropLast else line
      line :: rustLinesAux cs []
  | c :: cs, acc => rustLinesAux cs (c :: acc)

/-- Rust `str::lines`: split on `\n`, strip a `\r` before each `\n`, and do
not produce a final empty line for a trailing newline. -/
def rustLines (s : List Char) : List (List Char) :=
  rustLinesAux s []

/-- Helper for `splitWs`: maximal runs of non-whitespace characters. -/
def splitWsAux : List Char → List Char → List (List Char)
  | [], acc => if acc = [] then [] else [acc.reverse]
  | c :: cs, acc =>
      if isWs c then
        if acc = [] then splitWsAux cs [] else acc.reverse :: splitWsAux cs []
      else splitWsAux cs (c :: acc)

/-- Rust `str::split_whitespace`. -/
def splitWs (l : List Char) : List (List Char) :=
  splitWsAux l []

/-- All characters are decimal digits and there is at least one. -/
def isDigits (l : List Char) : Bool :=
  !l.isEmpty && l.all (·.isDigit)

/-- Numeric value of a digit string. -/
def digitsVal (l : List Char) : Nat :=
  l.foldl (fun a c => 10 * a + (c.toNat - 48)) 0

/-- Rust `str::parse::<u8>()`: optional leading `+`, digits, value ≤ 255. -/
def parseRustU8 (t : List Char) : Option Nat :=
  let r := match t with
    | '+' :: r => r
    | _ => t
  if isDigits r then
    let v := digitsVal r
    if v ≤ 255 then some v else none
  else none

/-- Rust `str::parse::<i32>()`: optional sign, digits, value within `i32`. -/
def parseRustI32 (t : List Char) : Option Int :=
  match t with
  | '+' :: r =>
      if isDigits r then
        let v := digitsVal r
        if v ≤ 2147483647 then some (v : Int) else none
      else none
  | '-' :: r =>
      if isDigits r then
        let v := digitsVal r
        if v ≤ 2147483648 then some (-(v : Int)) else none
      else none
  | _ =>
      if isDigits t then
        let v := digitsVal t
        if v ≤ 2147483647 then some (v : Int) else none
      else none

/-- A Rust `f64` value as produced by parsing an NDBC token: NaN, a signed
infinity, or a finite decimal carried exactly as `m / 10^e` with `e` minimal
(so numerically equal decimals such as `1`, `1.0` and `+1.00` share one
representation, matching `f64` equality on the short exact decimals of the
feeds). -/
inductive FloatVal where
  | nan : FloatVal
  | inf (neg : Bool) : FloatVal
  | fin (m : Int) (e : Nat) : FloatVal
deriving DecidableEq, Repr

/-- Split a token at its decimal point; `none` if it has more than one. -/
def splitDot : List Char → Option (List Char × List Char)
  | [] => some ([], [])
  | '.' :: r => if r.contains '.' then none else some ([], r)
  | c :: r => (splitDot r).map (fun p => (c :: p.1, p.2))

/-- Absolute value of a decimal token `digits[.digits]` (either part may be
empty but not both): the digit string's value paired with the number of
fractional digits. -/
def parseDecAbs (t : List Char) : Option (Nat × Nat) :=
  match splitDot t with
  | none => none
  | some (ip, fp) =>
      if ip.all (·.isDigit) && fp.all (·.isDigit) && !(ip.isEmpty && fp.isEmpty) then
        some (digitsVal (ip ++ fp), fp.length)
      else none

/-- Canonical form of `m / 10^e`: divide out factors of ten so that the
exponent is minimal. -/
def normDec : Int → Nat → Int × Nat
  | m, 0 => (m, 0)
  | m, e + 1 =>
      if Int.emod m 10 = 0 then normDec (Int.ediv m 10) e else (m, e + 1)

/-- Rust `str::parse::<f64>()` restricted to the token shapes that occur in
NDBC feeds: an optional sign followed by either the case-insensitive literals
`nan` / `inf` / `infinity` or a plain decimal number.  (Exponent forms do not
occur in the feeds and are not modelled; finite values are kept exact.) -/
def parseRustF64 (t : List Char) : Option FloatVal :=
  let (neg, r) := match t with
    | '+' :: r => (false, r)
    | '-' :: r => (true, r)
    | _ => (false, t)
  let low := r.map Char.toLower
  if low = "nan".data then some .nan
  else if low = "inf".data || low = "infinity".data then some (.inf neg)
  else match parseDecAbs r with
    | some (m, e) =>
        let p := normDec (if neg then -(m : Int) else (m : Int)) e
        some (.fin p.1 p.2)
    | none => none

/-! ### Calendar model (the `time` crate's proleptic Gregorian calendar) -/

/-- Leap year in the proleptic Gregorian calendar. -/
def isLeap (y : Int) : Bool :=
  y % 4 = 0 && (y % 100 ≠ 0 || y % 400 = 0)

/-- Days in a month (month given as 1..12). -/
def daysInMonth (y : Int) (m : Nat) : Nat :=
  if m = 2 then (if isLeap y then 29 else 28)
  else if m = 4 || m = 6 || m = 9 || m = 11 then 30
  else 31

/-- Test that `time::Date::from_calendar_date` succeeds: the year is within the crate's
±9999 range, the month is 1..12 and the day fits the month. -/
def validDate (y : Int) (m d : Nat) : Bool :=
  decide (-9999 ≤ y) && decide (y ≤ 9999) &&
  decide (1 ≤ m) && decide (m ≤ 12) &&
  decide (1 ≤ d) && decide (d ≤ daysInMonth y m)

/-- Days from 1970-01-01 to the given proleptic-Gregorian date (valid dates
only); the standard civil-days computation. -/
def daysFromCivil (y : Int) (m d : Nat) : Int :=
  let yAdj : Int := if m ≤ 2 then y - 1 else y
  let era : Int := Int.ediv yAdj 400
  let yoe : Int := yAdj - era * 400
  let mp : Int := ((m + 9) % 12 : Nat)
  let doy : Int := Int.ediv (153 * mp + 2) 5 + (d : Int) - 1
  let doe : Int := yoe * 365 + Int.ediv yoe 4 - Int.ediv yoe 100 + doy
  era * 146097 + doe - 719468

/-- UTC milliseconds since the epoch for a valid date at `h:mi:00`
(`unix_timestamp() * 1000 + millisecond()` with a zero millisecond part; the
`saturating_add` in `main.rs` cannot saturate within the ±9999 year range). -/
def tsMs (y : Int) (m d h mi : Nat) : Int :=
  (daysFromCivil y m d * 86400 + (h : Int) * 3600 + (mi : Int) * 60) * 1000

/-! ### Time-token decoding shared by the two parser variants -/

/-- Embedding of `Month::try_from(month).unwrap_or(Month::January)`: an out-of-range month
byte is coerced to January. -/
def coerceMonth (m : Nat) : Nat :=
  if 1 ≤ m && m ≤ 12 then m else 1

/-- Decode the year token: `parse::<i32>().unwrap_or(0)`, then values below
1000 are offset by 2000. -/
def decodeYear (t : List Char) : Int :=
  let y := (parseRustI32 t).getD 0
  if y ≥ 1000 then y else 2000 + y

/-- The five time components read positionally from the row's tokens, with the
source's per-component parse defaults (month/day default 1, hour/minute 0). -/
def timeFields (toks : List (List Char)) : Int × Nat × Nat × Nat × Nat :=
  (decodeYear (toks.headD []),
   (toks[1]?.bind parseRustU8).getD 1,
   (toks[2]?.bind parseRustU8).getD 1,
   (toks[3]?.bind parseRustU8).getD 0,
   (toks[4]?.bind parseRustU8).getD 0)

namespace NdbcLib

/-- Timestamp decoding in `lib.rs`: an invalid date falls back to 2000-01-01
(`unwrap_or_else`), an invalid time falls back to 00:00:00; the row is always
given a timestamp. -/
def decodeTime (toks : List (List Char)) : Int :=
  match timeFields toks with
  | (y, m, d, h, mi) =>
      let mc := coerceMonth m
      let ymd := if validDate y mc d then (y, mc, d) else ((2000 : Int), 1, 1)
      let hm := if h ≤ 23 && mi ≤ 59 then (h, mi) else (0, 0)
      tsMs ymd.1 ymd.2.1 ymd.2.2 hm.1 hm.2

/-- The decoder `decodeTime` wrapped in `some`, for the shared row-capture loop. -/
def decodeTimeOpt (toks : List (List Char)) : Option Int :=
  some (decodeTime toks)

end NdbcLib

namespace NdbcMain

/-- Timestamp decoding in `main.rs`: `Date::from_calendar_date(...).ok()` and
`Time::from_hms(...).ok()`; the row is skipped (`none`) unless both succeed.
The month byte is coerced to January by `Month::try_from(..).unwrap_or` before
the date check, exactly as in `lib.rs`. -/
def decodeTime (toks : List (List Char)) : Option Int :=
  match timeFields toks with
  | (y, m, d, h, mi) =>
      let mc := coerceMonth m
      if validDate y mc d && h ≤ 23 && mi ≤ 59 then some (tsMs y mc d h mi)
      else none

end NdbcMain

/-! ### Header discovery and row capture (shared loop shape) -/

/-- The fourteen recognized standard-met observation fields (`wanted`). -/
def wanted : List String :=
  ["WDIR", "WSPD", "GST", "WVHT", "DPD", "APD", "MWD", "PRES", "ATMP", "WTMP",
   "DEWP", "VIS", "PTDY", "TIDE"]

/-- Header-candidate test for one line: after `trim_start`, it starts with
`#`; after `trim_start_matches('#')` and `trim_start` it splits into ≥ 5
tokens whose first ends in `YY`, second is `MM`, third is `DD`.  Returns the
token list on success. -/
def headerToks (line : List Char) : Option (List (List Char)) :=
  let l := trimStart line
  if l.head? = some '#' then
    let header := trimStart (l.dropWhile (· = '#'))
    let tokens := splitWs header
    if tokens.length ≥ 5 && "YY".data.isSuffixOf (tokens.headD [])
        && tokens[1]? = some "MM".data && tokens[2]? = some "DD".data then
      some tokens
    else none
  else none

/-- The header-seeking loop: scan lines top to bottom for a header candidate;
on success consume the following line too when it is a comment (units line),
and return the header tokens with the remaining lines. -/
def findHeader : List (List Char) → Option (List (List Char) × List (List Char))
  | [] => none
  | line :: rest =>
      match headerToks line with
      | some toks =>
          some (toks,
            match rest with
            | [] => []
            | nxt :: rest2 =>
                if (trimStart nxt).head? = some '#' then rest2 else nxt :: rest2)
      | none => findHeader rest

/-- The `col_idx` map: a `HashMap` filled by inserting each header name with its
index, so a duplicated name keeps its last index. -/
def lastIdxOf (hdr : List (List Char)) (w : List Char) : Option Nat :=
  ((hdr.enum.filter (fun p => p.2 = w)).getLast?).map Prod.fst

/-- The row-capture loop, parameterized by the variant's time decoder: skip
blank lines, stop at a comment line, skip rows with fewer than 5 tokens, and
skip rows whose decoder returns `none` (the `lib.rs` decoder never does).
Each accepted row carries its timestamp and its token list. -/
def capture (dec : List (List Char) → Option Int) :
    List (List Char) → List (Int × List (List Char))
  | [] => []
  | line :: rest =>
      let l := rustTrim line
      if l.isEmpty then capture dec rest
      else if l.head? = some '#' then []
      else
        let toks := splitWs l
        if toks.length < 5 then capture dec rest
        else
          match dec toks with
          | some ts => (ts, toks) :: capture dec rest
          | none => capture dec rest

/-- The data region seen by the capture loop: trimmed lines in source order,
blank lines dropped, cut at the first comment line. -/
def dataLines : List (List Char) → List (List Char)
  | [] => []
  | line :: rest =>
      let l := rustTrim line
      if l.isEmpty then dataLines rest
      else if l.head? = some '#' then []
      else l :: dataLines rest

/-- Decode one (trimmed, non-comment, non-blank) data line to an accepted row,
`none` when it has fewer than 5 tokens or its time decoding fails. -/
def rowOf (dec : List (List Char) → Option Int) (l : List Char) :
    Option (Int × List (List Char)) :=
  let toks := splitWs l
  if toks.length < 5 then none
  else (dec toks).map (fun ts => (ts, toks))

/-- The Polars `DataFrame` as the parsers build it: `DataFrame::empty()` or a
`time_ms` column plus one named nullable-float column per recognized field. -/
inductive DF where
  | emptyDF : DF
  | mkDF (times : List Int) (cols : List (String × List (Option FloatVal))) : DF
deriving DecidableEq, Repr

/-- Number of rows of the frame (`df.height()`). -/
def DF.height : DF → Nat
  | .emptyDF => 0
  | .mkDF times _ => times.length

/-- The time column. -/
def DF.times : DF → List Int
  | .emptyDF => []
  | .mkDF times _ => times

/-- The named value columns. -/
def DF.cols : DF → List (String × List (Option FloatVal))
  | .emptyDF => []
  | .mkDF _ cols => cols

namespace NdbcLib

/-- Field extraction in `lib.rs`: look the field up in `col_idx`; a missing
column, a missing token, the sentinels `MM` / `NaN`, and unparsable text all
yield `None`; otherwise `parse::<f64>().ok()`. -/
def fieldVal (hdr : List (List Char)) (toks : List (List Char)) (w : List Char) :
    Option FloatVal :=
  match lastIdxOf hdr w with
  | some idx =>
      match toks[idx]? with
      | some s => if s = "MM".data || s = "NaN".data then none else parseRustF64 s
      | none => none
  | none => none

/-- Embedding of `parse_std_met_to_df` from `lib.rs`: find the header (empty frame when
there is none), capture the rows (every ≥5-token row is kept, with fallback
timestamps for invalid dates/times), and assemble `time_ms` plus the fourteen
`wanted` columns under their upper-case names.  The loop pushes each accepted
row's cell once into every column vector, so each column equals the map of the
field extraction over the accepted rows. -/
def parse_std_met_to_df (text : String) : DF :=
  match findHeader (rustLines text.data) with
  | none => .emptyDF
  | some (hdr, rest) =>
      let rows := capture decodeTimeOpt rest
      .mkDF (rows.map Prod.fst)
        (wanted.map (fun w => (w, rows.map (fun r => fieldVal hdr r.2 w.data))))

end NdbcLib

namespace NdbcMain

/-- Field extraction in `main.rs`: a field absent from the header is marked
with `usize::MAX` and pushed as `None`; otherwise the token at the header
index (defaulting to `MM` beyond the row's end) is `None` when equal to `MM`
and `parse::<f64>().ok()` otherwise (so a literal `NaN` token becomes the
float NaN value here, unlike in `lib.rs`). -/
def fieldVal (hdr : List (List Char)) (toks : List (List Char)) (w : List Char) :
    Option FloatVal :=
  match lastIdxOf hdr w with
  | some idx =>
      let v := toks[idx]?.getD "MM".data
      if v = "MM".data then none else parseRustF64 v
  | none => none

/-- Embedding of `parse_std_met_to_df` from `main.rs`: as in `lib.rs`, but rows whose date
or time does not validate are skipped, the columns are named in lower case,
and the time column is cast to `Datetime[ms]` (same payload). -/
def parse_std_met_to_df (text : String) : DF :=
  match findHeader (rustLines text.data) with
  | none => .emptyDF
  | some (hdr, rest) =>
      let rows := capture decodeTime rest
      .mkDF (rows.map Prod.fst)
        (wanted.map (fun w =>
          (String.mk (w.data.map Char.toLower),
            rows.map (fun r => fieldVal hdr r.2 w.data))))

end NdbcMain

/-! ### Station metadata scan (`NdbcData::fetch_station_metadata`, lib.rs) -/

/-- A `quick_xml` event as the scan loop distinguishes them: an opening tag
with its attributes (in document order, as raw strings), a closing tag, or
anything else (text, comments, self-closing `Empty` tags, ...).  The end of
the event list plays the role of `Event::Eof`; the malformed-markup `Err`
branch is outside this embedding, whose input is already an event list. -/
inductive XmlEvent where
  | start (name : String) (attrs : List (String × String)) : XmlEvent
  | close (name : String) : XmlEvent
  | other : XmlEvent

/-- Rust `e.attributes().find(|a| a.key == k)` — the first attribute with the key. -/
def firstAttr (attrs : List (String × String)) (k : String) : Option String :=
  (attrs.find? (fun a => a.1 = k)).map Prod.snd

/-- The history-attribute `for` loop assigns on every occurrence of a key, so
the last occurrence wins. -/
def lastAttr (attrs : List (String × String)) (k : String) : Option String :=
  ((attrs.filter (fun a => a.1 = k)).getLast?).map Prod.snd

/-- The test `met.as_deref() == Some("y")`. -/
def metYes (attrs : List (String × String)) : Bool :=
  lastAttr attrs "met" = some "y"

/-- The test `stop.as_deref().map(|s| s.is_empty()).unwrap_or(true)`: the interval is
currently active when its stop marker is absent or empty. -/
def isCurrent (attrs : List (String × String)) : Bool :=
  match lastAttr attrs "stop" with
  | some s => s = ""
  | none => true

/-- The `lat` / `lng` attributes parsed with `val.parse().ok()`. -/
def latLngOf (attrs : List (String × String)) :
    Option FloatVal × Option FloatVal :=
  ((lastAttr attrs "lat").bind (fun v => parseRustF64 v.data),
   (lastAttr attrs "lng").bind (fun v => parseRustF64 v.data))

/-- Handling of one `history` start tag: when `met="y"` and both coordinates
parsed, pick the position if none is picked yet or this entry is the currently
active interval; otherwise keep the existing candidate. -/
def historyStep (picked : Option (FloatVal × FloatVal))
    (attrs : List (String × String)) : Option (FloatVal × FloatVal) :=
  match latLngOf attrs with
  | (some la, some lo) =>
      if metYes attrs then
        if picked.isNone || isCurrent attrs then some (la, lo) else picked
      else picked
  | _ => picked

/-- The scan-loop state: the `in_stations` flag, the current station id, the
candidate position, and the accumulated `station_meta` map (modelled as an
association list with `HashMap`-style overwriting insert). -/
structure ScanState where
  in_stations : Bool
  current_station_id : Option String
  picked_lat_lon : Option (FloatVal × FloatVal)
  station_meta : List (String × (FloatVal × FloatVal))

/-- Embedding of `HashMap::insert`: overwrite the entry with the key, or append. -/
def insertMeta (m : List (String × (FloatVal × FloatVal))) (k : String)
    (v : FloatVal × FloatVal) : List (String × (FloatVal × FloatVal)) :=
  if m.any (fun p => p.1 = k) then
    m.map (fun p => if p.1 = k then (k, v) else p)
  else m ++ [(k, v)]

/-- The event loop of `fetch_station_metadata`: set `in_stations` on the
`stations` start tag; reset the accumulator on each `station` start tag (its
`id` attribute looked up first-wins); fold `history` start tags through
`historyStep`; on a `station` end tag insert the station when both id and
position were captured (both are `take`n regardless); stop at the `stations`
end tag or at the end of the events. -/
def scanLoop : ScanState → List XmlEvent → ScanState
  | st, [] => st
  | st, ev :: rest =>
      match ev with
      | .start name attrs =>
          if name = "stations" then
            scanLoop { st with in_stations := true } rest
          else if st.in_stations && name = "station" then
            scanLoop { st with current_station_id := firstAttr attrs "id",
                               picked_lat_lon := none } rest
          else if st.in_stations && name = "history" then
            scanLoop { st with
              picked_lat_lon := historyStep st.picked_lat_lon attrs } rest
          else scanLoop st rest
      | .close name =>
          if name = "station" then
            match st.current_station_id, st.picked_lat_lon with
            | some id, some ll =>
                scanLoop { st with current_station_id := none,
                                   picked_lat_lon := none,
                                   station_meta := insertMeta st.station_meta id ll } rest
            | _, _ =>
                scanLoop { st with current_station_id := none,
                                   picked_lat_lon := none } rest
          else if name = "stations" then st
          else scanLoop st rest
      | .other => scanLoop st rest

namespace NdbcLib

/-- Embedding of `fetch_station_metadata` after the download: scan the event stream and
fail with the `no stations` error when the resulting map is empty. -/
def fetch_station_metadata (evs : List XmlEvent) :
    Except String (List (String × (FloatVal × FloatVal))) :=
  let st := scanLoop ⟨false, none, none, []⟩ evs
  if st.station_meta.isEmpty then
    .error "no stations with met data found in metadata"
  else .ok st.station_meta

end NdbcLib

/-- The feeds on which the two parser variants agree (used to state the
refinement between them): every data line that reaches time decoding passes
`main.rs`'s date/time validation, and no token is the literal `NaN`. -/
def goodLine (line : List Char) : Prop :=
  rustTrim line ≠ [] → (rustTrim line).head? ≠ some '#' →
    ((splitWs (rustTrim line)).length ≥ 5 →
        (NdbcMain.decodeTime (splitWs (rustTrim line))).isSome = true) ∧
    ∀ s ∈ splitWs (rustTrim line), s ≠ "NaN".data

instance (line : List Char) : Decidable (goodLine line) := by
  unfold goodLine; infer_instance

/-! ## Helper lemmas -/

/-- When no line is a header candidate, the header-seeking loop fails. -/
theorem findHeader_eq_none {ls : List (List Char)}
    (h : ∀ l ∈ ls, headerToks l = none) : findHeader ls = none := by
  induction ls with
  | nil => rfl
  | cons line rest ih =>
      have h1 : headerToks line = none := h line (by simp)
      simp only [findHeader, h1]
      exact ih (fun l hl => h l (by simp [hl]))

/-- The lines handed to the capture loop are lines of the original text. -/
theorem findHeader_rest_mem {ls hdr rest} (h : findHeader ls = some (hdr, rest)) :
    ∀ l ∈ rest, l ∈ ls := by
  induction ls with
  | nil => simp [findHeader] at h
  | cons line tail ih =>
      simp only [findHeader] at h
      cases hh : headerToks line with
      | none =>
          rw [hh] at h
          exact fun l hl => List.mem_cons_of_mem _ (ih h l hl)
      | some toks =>
          rw [hh] at h
          simp only [Option.some.injEq, Prod.mk.injEq] at h
          obtain ⟨-, hrest⟩ := h
          intro l hl
          rw [← hrest] at hl
          cases tail with
          | nil => simp at hl
          | cons nxt tail2 =>
              simp only at hl
              by_cases hc : (trimStart nxt).head? = some '#'
              · rw [if_pos hc] at hl
                exact List.mem_cons_of_mem _ (List.mem_cons_of_mem _ hl)
              · rw [if_neg hc] at hl
                exact List.mem_cons_of_mem _ hl

/-- A field absent from the header yields `None` in `lib.rs`. -/
theorem fieldVal_lib_none {hdr w} (h : lastIdxOf hdr w = none) (toks) :
    NdbcLib.fieldVal hdr toks w = none := by
  simp [NdbcLib.fieldVal, h]

/-- A field absent from the header yields `None` in `main.rs`. -/
theorem fieldVal_main_none {hdr w} (h : lastIdxOf hdr w = none) (toks) :
    NdbcMain.fieldVal hdr toks w = none := by
  simp [NdbcMain.fieldVal, h]

/-- The capture loop is the in-order `filterMap` of per-line row decoding over
the data region: accepted rows appear exactly in source-line order. -/
theorem capture_eq_filterMap (dec : List (List Char) → Option Int) :
    ∀ ls, capture dec ls = (dataLines ls).filterMap (rowOf dec) := by
  intro ls
  induction ls with
  | nil => rfl
  | cons line rest ih =>
      by_cases h1 : (rustTrim line).isEmpty
      · simp [capture, dataLines, h1, ih]
      · by_cases h2 : (rustTrim line).head? = some '#'
        · simp [capture, dataLines, h1, h2]
        · by_cases h3 : (splitWs (rustTrim line)).length < 5
          · simp [capture, dataLines, rowOf, h1, h2, h3, ih]
          · cases hd : dec (splitWs (rustTrim line)) with
            | none => simp [capture, dataLines, rowOf, h1, h2, h3, hd, ih]
            | some ts => simp [capture, dataLines, rowOf, h1, h2, h3, hd, ih]

/-- When `main.rs` accepts a row's time, `lib.rs` decodes the same instant. -/
theorem decode_agree {toks : List (List Char)} {ts : Int}
    (h : NdbcMain.decodeTime toks = some ts) : NdbcLib.decodeTime toks = ts := by
  rcases htf : timeFields toks with ⟨y, m, d, hh, mi⟩
  simp only [NdbcMain.decodeTime, htf] at h
  simp only [NdbcLib.decodeTime, htf]
  split at h
  case isTrue hc =>
      simp only [Bool.and_eq_true] at hc
      obtain ⟨⟨hv, hh23⟩, hm59⟩ := hc
      rw [if_pos hv, if_pos (by simp [hh23, hm59])]
      simpa using h
  case isFalse hc => exact absurd h (by simp)

/-- On rows without the literal `NaN` token, the two variants' field
extraction agrees. -/
theorem field_agree {hdr toks w}
    (hnan : ∀ s ∈ toks, s ≠ "NaN".data) :
    NdbcLib.fieldVal hdr toks w = NdbcMain.fieldVal hdr toks w := by
  cases hidx : lastIdxOf hdr w with
  | none => simp [NdbcLib.fieldVal, NdbcMain.fieldVal, hidx]
  | some idx =>
      cases hg : toks[idx]? with
      | none => simp [NdbcLib.fieldVal, NdbcMain.fieldVal, hidx, hg]
      | some s =>
          have hs : s ≠ "NaN".data := hnan s (List.getElem?_mem hg)
          by_cases hmm : s = "MM".data
          · simp [NdbcLib.fieldVal, NdbcMain.fieldVal, hidx, hg, hmm]
          · simp [NdbcLib.fieldVal, NdbcMain.fieldVal, hidx, hg, hmm, hs]

/-- On good feeds (rows validated by `main.rs`, no `NaN` tokens) the two
capture loops produce the same rows, and no captured token is `NaN`. -/
theorem capture_agree : ∀ ls, (∀ l ∈ ls, goodLine l) →
    capture NdbcLib.decodeTimeOpt ls = capture NdbcMain.decodeTime ls ∧
    ∀ p ∈ capture NdbcMain.decodeTime ls, ∀ s ∈ p.2, s ≠ "NaN".data := by
  intro ls
  induction ls with
  | nil => exact fun _ => ⟨rfl, by simp [capture]⟩
  | cons line rest ih =>
      intro hg
      have hline := hg line (by simp)
      have hrest := ih (fun l hl => hg l (by simp [hl]))
      by_cases h1 : (rustTrim line).isEmpty
      · simpa [capture, h1] using hrest
      · have h1' : rustTrim line ≠ [] := by simpa [List.isEmpty_iff] using h1
        by_cases h2 : (rustTrim line).head? = some '#'
        · simp [capture, h1, h2]
        · obtain ⟨hdec, hnan⟩ := hline h1' h2
          by_cases h3 : (splitWs (rustTrim line)).length < 5
          · simpa [capture, h1, h2, h3] using hrest
          · obtain ⟨ts, hts⟩ :=
              Option.isSome_iff_exists.mp (hdec (Nat.le_of_not_lt h3))
            have hlib : NdbcLib.decodeTimeOpt (splitWs (rustTrim line)) = some ts := by
              rw [NdbcLib.decodeTimeOpt, decode_agree hts]
            have hL : capture NdbcLib.decodeTimeOpt (line :: rest)
                = (ts, splitWs (rustTrim line)) :: capture NdbcLib.decodeTimeOpt rest := by
              simp [capture, h1, h2, h3, hlib]
            have hR : capture NdbcMain.decodeTime (line :: rest)
                = (ts, splitWs (rustTrim line)) :: capture NdbcMain.decodeTime rest := by
              simp [capture, h1, h2, h3, hts]
            refine ⟨by rw [hL, hR, hrest.1], ?_⟩
            rw [hR]
            intro p hp
            rcases List.mem_cons.mp hp with hp | hp
            · subst hp; exact hnan
            · exact hrest.2 p hp

/-! ## Claims -/

/-- C3: the year is decoded positionally from the first token: a parsed value
`0 ≤ yy < 1000` yields calendar year `2000 + yy`, and a parsed value
`yyyy ≥ 1000` is used unchanged. -/
theorem C3_prop :
    (∀ (t : List Char) (yy : Int), parseRustI32 t = some yy → 0 ≤ yy →
        yy < 1000 → decodeYear t = 2000 + yy) ∧
    (∀ (t : List Char) (yy : Int), parseRustI32 t = some yy → 1000 ≤ yy →
        decodeYear t = yy) := by
  constructor
  · intro t yy h h0 hlt
    simp only [decodeYear, h, Option.getD_some]
    rw [if_neg (by omega)]
  · intro t yy h h1000
    simp only [decodeYear, h, Option.getD_some]
    rw [if_pos (by omega)]

/-- Witness for C3 at the tokens `23` and `2023`. -/
theorem C3_witness :
    (parseRustI32 "23".data = some 23 ∧ (0 : Int) ≤ 23 ∧ (23 : Int) < 1000 ∧
      decodeYear "23".data = 2000 + 23) ∧
    (parseRustI32 "2023".data = some 2023 ∧ (1000 : Int) ≤ 2023 ∧
      decodeYear "2023".data = 2023) :=
  ⟨⟨by decide, by decide, by decide,
    C3_prop.1 "23".data 23 (by decide) (by decide) (by decide)⟩,
   ⟨by decide, by decide, C3_prop.2 "2023".data 2023 (by decide) (by decide)⟩⟩

/-- C4: a recognized field whose token is the sentinel `MM` decodes to the
absent value in both variants — never `0.0` and never the float NaN value. -/
theorem C4_prop :
    ∀ (hdr toks : List (List Char)) (w : List Char) (idx : Nat),
      lastIdxOf hdr w = some idx → toks[idx]? = some "MM".data →
      NdbcLib.fieldVal hdr toks w = none ∧ NdbcMain.fieldVal hdr toks w = none ∧
      NdbcLib.fieldVal hdr toks w ≠ some (FloatVal.fin 0 0) ∧
      NdbcLib.fieldVal hdr toks w ≠ some FloatVal.nan ∧
      NdbcMain.fieldVal hdr toks w ≠ some (FloatVal.fin 0 0) ∧
      NdbcMain.fieldVal hdr toks w ≠ some FloatVal.nan := by
  intro hdr toks w idx h1 h2
  have hl : NdbcLib.fieldVal hdr toks w = none := by
    simp [NdbcLib.fieldVal, h1, h2]
  have hm : NdbcMain.fieldVal hdr toks w = none := by
    simp [NdbcMain.fieldVal, h1, h2]
  exact ⟨hl, hm, by simp [hl], by simp [hl], by simp [hm], by simp [hm]⟩

/-- Witness for C4: a row whose `WDIR` token is `MM`. -/
theorem C4_witness :
    lastIdxOf (splitWs "YY MM DD hh mm WDIR".data) "WDIR".data = some 5 ∧
    (splitWs "23 01 15 06 30 MM".data)[5]? = some "MM".data ∧
    NdbcLib.fieldVal (splitWs "YY MM DD hh mm WDIR".data)
      (splitWs "23 01 15 06 30 MM".data) "WDIR".data = none ∧
    NdbcMain.fieldVal (splitWs "YY MM DD hh mm WDIR".data)
      (splitWs "23 01 15 06 30 MM".data) "WDIR".data = none :=
  ⟨by decide, by decide,
   (C4_prop _ _ _ 5 (by decide) (by decide)).1,
   (C4_prop _ _ _ 5 (by decide) (by decide)).2.1⟩

/-- C6: a feed with no line matching the header pattern parses to the empty
frame with zero rows in both variants, with no error raised (the embedding of
both parsers is total). -/
theorem C6_prop :
    ∀ text : String, (∀ l ∈ rustLines text.data, headerToks l = none) →
      NdbcLib.parse_std_met_to_df text = DF.emptyDF ∧
      NdbcMain.parse_std_met_to_df text = DF.emptyDF ∧
      (NdbcLib.parse_std_met_to_df text).height = 0 ∧
      (NdbcMain.parse_std_met_to_df text).height = 0 := by
  intro text h
  have hf := findHeader_eq_none h
  have h1 : NdbcLib.parse_std_met_to_df text = DF.emptyDF := by
    simp [NdbcLib.parse_std_met_to_df, hf]
  have h2 : NdbcMain.parse_std_met_to_df text = DF.emptyDF := by
    simp [NdbcMain.parse_std_met_to_df, hf]
  exact ⟨h1, h2, by rw [h1]; rfl, by rw [h2]; rfl⟩

/-- Witness for C6: a feed whose comment line is not a header candidate. -/
theorem C6_witness :
    (∀ l ∈ rustLines "hello\n#YY MM".data, headerToks l = none) ∧
    NdbcLib.parse_std_met_to_df "hello\n#YY MM" = DF.emptyDF ∧
    (NdbcMain.parse_std_met_to_df "hello\n#YY MM").height = 0 :=
  ⟨by decide,
   (C6_prop "hello\n#YY MM" (by decide)).1,
   (C6_prop "hello\n#YY MM" (by decide)).2.2.2⟩

/-- C7: when the metadata scan ends with an empty station map,
`fetch_station_metadata` fails with the no-stations error instead of
succeeding with an empty mapping. -/
theorem C7_prop :
    ∀ evs : List XmlEvent,
      (scanLoop ⟨false, none, none, []⟩ evs).station_meta = [] →
      NdbcLib.fetch_station_metadata evs
        = Except.error "no stations with met data found in metadata" := by
  intro evs h
  simp [NdbcLib.fetch_station_metadata, h]

/-- Witness for C7: a metadata document with no station at all. -/
theorem C7_witness :
    (scanLoop ⟨false, none, none, []⟩
        [XmlEvent.start "stations" [], XmlEvent.close "stations"]).station_meta
      = [] ∧
    NdbcLib.fetch_station_metadata
        [XmlEvent.start "stations" [], XmlEvent.close "stations"]
      = Except.error "no stations with met data found in metadata" :=
  ⟨by decide, C7_prop _ (by decide)⟩

/-- C2: candidate selection per station — the first met-enabled entry with
both coordinates is accepted unconditionally, a picked candidate is replaced
only by a currently-active entry, and on the two specified metadata scenarios
the scanner selects (3,4) (open beats closed) and (5,6) (closed fallback). -/
theorem C2_prop :
    (∀ (attrs : List (String × String)) (la lo : FloatVal),
        metYes attrs = true → latLngOf attrs = (some la, some lo) →
        historyStep none attrs = some (la, lo)) ∧
    (∀ (p : FloatVal × FloatVal) (attrs : List (String × String))
        (la lo : FloatVal),
        metYes attrs = true → isCurrent attrs = true →
        latLngOf attrs = (some la, some lo) →
        historyStep (some p) attrs = some (la, lo)) ∧
    (∀ (p : FloatVal × FloatVal) (attrs : List (String × String)),
        historyStep (some p) attrs ≠ some p →
        metYes attrs = true ∧ isCurrent attrs = true) ∧
    (scanLoop ⟨false, none, none, []⟩
        [XmlEvent.start "stations" [],
         XmlEvent.start "station" [("id", "ST1")],
         XmlEvent.start "history"
           [("met", "y"), ("stop", "2020-01-01"), ("lat", "1"), ("lng", "2")],
         XmlEvent.start "history" [("met", "y"), ("lat", "3"), ("lng", "4")],
         XmlEvent.close "station",
         XmlEvent.close "stations"]).station_meta
      = [("ST1", (FloatVal.fin 3 0, FloatVal.fin 4 0))] ∧
    (scanLoop ⟨false, none, none, []⟩
        [XmlEvent.start "stations" [],
         XmlEvent.start "station" [("id", "ST1")],
         XmlEvent.start "history"
           [("met", "y"), ("stop", "2020-01-01"), ("lat", "5"), ("lng", "6")],
         XmlEvent.close "station",
         XmlEvent.close "stations"]).station_meta
      = [("ST1", (FloatVal.fin 5 0, FloatVal.fin 6 0))] := by
  refine ⟨?_, ?_, ?_, by decide, by decide⟩
  · intro attrs la lo hm hll
    simp [historyStep, hll, hm]
  · intro p attrs la lo hm hc hll
    simp [historyStep, hll, hm, hc]
  · intro p attrs hne
    rcases hll : latLngOf attrs with ⟨la?, lo?⟩
    cases la? with
    | none => exact absurd (by simp [historyStep, hll]) hne
    | some la =>
        cases lo? with
        | none => exact absurd (by simp [historyStep, hll]) hne
        | some lo =>
            by_cases hm : metYes attrs
            · by_cases hc : isCurrent attrs
              · exact ⟨hm, hc⟩
              · exact absurd (by simp [historyStep, hll, hm, hc]) hne
            · exact absurd (by simp [historyStep, hll, hm]) hne

/-- Witness for C2's conditional parts: a fresh pick and an active overwrite
on concrete history attributes. -/
theorem C2_witness :
    (metYes [("met", "y"), ("lat", "1"), ("lng", "2")] = true ∧
      latLngOf [("met", "y"), ("lat", "1"), ("lng", "2")]
        = (some (FloatVal.fin 1 0), some (FloatVal.fin 2 0)) ∧
      historyStep none [("met", "y"), ("lat", "1"), ("lng", "2")]
        = some (FloatVal.fin 1 0, FloatVal.fin 2 0)) ∧
    (isCurrent [("met", "y"), ("stop", ""), ("lat", "3"), ("lng", "4")] = true ∧
      historyStep (some (FloatVal.fin 1 0, FloatVal.fin 2 0))
          [("met", "y"), ("stop", ""), ("lat", "3"), ("lng", "4")]
        = some (FloatVal.fin 3 0, FloatVal.fin 4 0)) :=
  ⟨⟨by decide, by decide,
    C2_prop.1 [("met", "y"), ("lat", "1"), ("lng", "2")] _ _ (by decide) (by decide)⟩,
   ⟨by decide,
    C2_prop.2.1 (FloatVal.fin 1 0, FloatVal.fin 2 0)
      [("met", "y"), ("stop", ""), ("lat", "3"), ("lng", "4")] _ _
      (by decide) (by decide) (by decide)⟩⟩

/-- Counterexample to C1 as stated: in the row `23 13 15 06 30 180` the month
token decodes to 13, out of range, yet both parsers keep the row (one row in
the output, with the month coerced to January: 2023-01-15T06:30:00Z =
1673764200000 ms) instead of silently skipping it. -/
theorem C1_counterexample :
    parseRustU8 "13".data = some 13 ∧ ¬ (13 : Nat) ≤ 12 ∧
    (NdbcLib.parse_std_met_to_df
        "#YY MM DD hh mm WDIR\n#yr mo dy hr mn degT\n23 13 15 06 30 180").height
      = 1 ∧
    (NdbcMain.parse_std_met_to_df
        "#YY MM DD hh mm WDIR\n#yr mo dy hr mn degT\n23 13 15 06 30 180").height
      = 1 ∧
    (NdbcMain.parse_std_met_to_df
        "#YY MM DD hh mm WDIR\n#yr mo dy hr mn degT\n23 13 15 06 30 180").times
      = [1673764200000] := by
  decide

/-- C1 as amended: only the `main.rs` variant skips rows, and only those whose
time decoding fails after the month has been coerced (an out-of-range month
becomes January); parsing then continues with the next line.  The `lib.rs`
variant never skips a row for date/time reasons: every ≥5-token data line is
appended with its (possibly fallback) timestamp. -/
theorem C1_prop :
    (∀ (line : List Char) (rest : List (List Char)),
        rustTrim line ≠ [] → (rustTrim line).head? ≠ some '#' →
        ¬ (splitWs (rustTrim line)).length < 5 →
        NdbcMain.decodeTime (splitWs (rustTrim line)) = none →
        capture NdbcMain.decodeTime (line :: rest)
          = capture NdbcMain.decodeTime rest) ∧
    (∀ (line : List Char) (rest : List (List Char)),
        rustTrim line ≠ [] → (rustTrim line).head? ≠ some '#' →
        ¬ (splitWs (rustTrim line)).length < 5 →
        capture NdbcLib.decodeTimeOpt (line :: rest)
          = (NdbcLib.decodeTime (splitWs (rustTrim line)),
              splitWs (rustTrim line)) :: capture NdbcLib.decodeTimeOpt rest) ∧
    (∀ m : Nat, ¬ (1 ≤ m ∧ m ≤ 12) → coerceMonth m = 1) := by
  refine ⟨?_, ?_, ?_⟩
  · intro line rest h1 h2 h3 h4
    simp [capture, List.isEmpty_iff, h1, h2, h3, h4]
  · intro line rest h1 h2 h3
    simp [capture, List.isEmpty_iff, h1, h2, h3, NdbcLib.decodeTimeOpt]
  · intro m hm
    have hb : ¬ ((1 ≤ m && m ≤ 12) = true) := by
      simpa [Bool.and_eq_true, decide_eq_true_eq] using hm
    simp [coerceMonth, hb]

/-- Witness for C1 at the invalid-date row `23 02 30 06 30 7.5` (February 30)
and the out-of-range month 13. -/
theorem C1_witness :
    (rustTrim "23 02 30 06 30 7.5".data ≠ [] ∧
      (rustTrim "23 02 30 06 30 7.5".data).head? ≠ some '#' ∧
      ¬ (splitWs (rustTrim "23 02 30 06 30 7.5".data)).length < 5 ∧
      NdbcMain.decodeTime (splitWs (rustTrim "23 02 30 06 30 7.5".data)) = none) ∧
    capture NdbcMain.decodeTime ["23 02 30 06 30 7.5".data]
      = capture NdbcMain.decodeTime [] ∧
    capture NdbcLib.decodeTimeOpt ["23 02 30 06 30 7.5".data]
      = (NdbcLib.decodeTime (splitWs (rustTrim "23 02 30 06 30 7.5".data)),
          splitWs (rustTrim "23 02 30 06 30 7.5".data))
          :: capture NdbcLib.decodeTimeOpt [] ∧
    coerceMonth 13 = 1 :=
  ⟨⟨by decide, by decide, by decide, by decide⟩,
   C1_prop.1 _ [] (by decide) (by decide) (by decide) (by decide),
   C1_prop.2.1 _ [] (by decide) (by decide) (by decide),
   C1_prop.2.2 13 (by decide)⟩

/-- Auxiliary: a constant-`none` map is a replicate. -/
theorem map_none_eq_replicate {α : Type} (rows : List α) :
    rows.map (fun _ => (none : Option FloatVal))
      = List.replicate rows.length none := by
  induction rows with
  | nil => rfl
  | cons a l ih => simp [ih, List.replicate_succ]

/-- C5: a recognized field missing from the discovered header still yields a
column in the output of both variants (under the variant's naming), with the
absent value in every row. -/
theorem C5_prop :
    ∀ (text : String) (hdr rest : List (List Char)) (w : String),
      findHeader (rustLines text.data) = some (hdr, rest) →
      w ∈ wanted → lastIdxOf hdr w.data = none →
      ((w, List.replicate (NdbcLib.parse_std_met_to_df text).height
          (none : Option FloatVal)) ∈ (NdbcLib.parse_std_met_to_df text).cols) ∧
      ((String.mk (w.data.map Char.toLower),
          List.replicate (NdbcMain.parse_std_met_to_df text).height
          (none : Option FloatVal)) ∈ (NdbcMain.parse_std_met_to_df text).cols) := by
  intro text hdr rest w hf hw hidx
  constructor
  · simp only [NdbcLib.parse_std_met_to_df, hf, DF.height, DF.cols]
    refine List.mem_map.mpr ⟨w, hw, ?_⟩
    have : (capture NdbcLib.decodeTimeOpt rest).map
        (fun r => NdbcLib.fieldVal hdr r.2 w.data)
        = (capture NdbcLib.decodeTimeOpt rest).map (fun _ => none) :=
      List.map_congr_left (fun r _ => fieldVal_lib_none hidx r.2)
    rw [this, map_none_eq_replicate, List.length_map]
  · simp only [NdbcMain.parse_std_met_to_df, hf, DF.height, DF.cols]
    refine List.mem_map.mpr ⟨w, hw, ?_⟩
    have : (capture NdbcMain.decodeTime rest).map
        (fun r => NdbcMain.fieldVal hdr r.2 w.data)
        = (capture NdbcMain.decodeTime rest).map (fun _ => none) :=
      List.map_congr_left (fun r _ => fieldVal_main_none hidx r.2)
    rw [this, map_none_eq_replicate, List.length_map]

/-- Witness for C5: a feed whose header has no `WDIR` column. -/
theorem C5_witness :
    findHeader (rustLines "#YY MM DD hh mm PRES\n#u\n23 01 15 06 30 1013.2".data)
      = some (splitWs "YY MM DD hh mm PRES".data,
              ["23 01 15 06 30 1013.2".data]) ∧
    "WDIR" ∈ wanted ∧
    lastIdxOf (splitWs "YY MM DD hh mm PRES".data) "WDIR".data = none ∧
    (("WDIR", List.replicate
        (NdbcLib.parse_std_met_to_df
          "#YY MM DD hh mm PRES\n#u\n23 01 15 06 30 1013.2").height
        (none : Option FloatVal))
      ∈ (NdbcLib.parse_std_met_to_df
          "#YY MM DD hh mm PRES\n#u\n23 01 15 06 30 1013.2").cols) :=
  ⟨by decide, by decide, by decide,
   (C5_prop "#YY MM DD hh mm PRES\n#u\n23 01 15 06 30 1013.2"
      (splitWs "YY MM DD hh mm PRES".data) ["23 01 15 06 30 1013.2".data] "WDIR"
      (by decide) (by decide) (by decide)).1⟩

/-- C8: rows appear in the output exactly in source order — the capture loop
equals the order-preserving `filterMap` of per-line decoding over the data
region, and hence each variant's time column is that `filterMap`'s timestamps
in encounter order. -/
theorem C8_prop :
    (∀ (dec : List (List Char) → Option Int) (ls : List (List Char)),
        capture dec ls = (dataLines ls).filterMap (rowOf dec)) ∧
    (∀ (text : String) (hdr rest : List (List Char)),
        findHeader (rustLines text.data) = some (hdr, rest) →
        (NdbcLib.parse_std_met_to_df text).times
          = ((dataLines rest).filterMap (rowOf NdbcLib.decodeTimeOpt)).map
              Prod.fst ∧
        (NdbcMain.parse_std_met_to_df text).times
          = ((dataLines rest).filterMap (rowOf NdbcMain.decodeTime)).map
              Prod.fst) := by
  refine ⟨capture_eq_filterMap, ?_⟩
  intro text hdr rest hf
  constructor
  · simp only [NdbcLib.parse_std_met_to_df, hf, DF.times]
    rw [capture_eq_filterMap]
  · simp only [NdbcMain.parse_std_met_to_df, hf, DF.times]
    rw [capture_eq_filterMap]

/-- Witness for C8 on a concrete two-row feed. -/
theorem C8_witness :
    findHeader (rustLines
        "#YY MM DD hh mm WDIR\n#u\n23 01 15 06 30 180\n23 01 15 07 00 MM".data)
      = some (splitWs "YY MM DD hh mm WDIR".data,
              ["23 01 15 06 30 180".data, "23 01 15 07 00 MM".data]) ∧
    (NdbcMain.parse_std_met_to_df
        "#YY MM DD hh mm WDIR\n#u\n23 01 15 06 30 180\n23 01 15 07 00 MM").times
      = (List.filterMap (rowOf NdbcMain.decodeTime)
          (dataLines ["23 01 15 06 30 180".data, "23 01 15 07 00 MM".data])).map
          Prod.fst :=
  ⟨by decide,
   (C8_prop.2 "#YY MM DD hh mm WDIR\n#u\n23 01 15 06 30 180\n23 01 15 07 00 MM"
      (splitWs "YY MM DD hh mm WDIR".data)
      ["23 01 15 06 30 180".data, "23 01 15 07 00 MM".data] (by decide)).2⟩

/-- Counterexample to C9 as stated: on a feed with a February-30 row the two
variants disagree on the row set (`lib.rs` keeps it with a fallback timestamp,
`main.rs` drops it), and on a `NaN` token they disagree on the cell value
(`lib.rs` yields the absent value, `main.rs` the float NaN). -/
theorem C9_counterexample :
    (NdbcLib.parse_std_met_to_df
        "#YY MM DD hh mm WDIR\n#yr mo dy hr mn degT\n23 02 30 06 30 7.5\n23 01 15 06 30 NaN").height
      = 2 ∧
    (NdbcMain.parse_std_met_to_df
        "#YY MM DD hh mm WDIR\n#yr mo dy hr mn degT\n23 02 30 06 30 7.5\n23 01 15 06 30 NaN").height
      = 1 ∧
    ((NdbcLib.parse_std_met_to_df
        "#YY MM DD hh mm WDIR\n#yr mo dy hr mn degT\n23 01 15 06 30 NaN").cols).head?
      = some ("WDIR", [none]) ∧
    ((NdbcMain.parse_std_met_to_df
        "#YY MM DD hh mm WDIR\n#yr mo dy hr mn degT\n23 01 15 06 30 NaN").cols).head?
      = some ("wdir", [some FloatVal.nan]) := by
  decide

/-- C9 as amended: the two variants produce identical row timestamps and
identical per-cell field values (columns compared positionally, ignoring the
documented name-casing difference) on every feed whose data rows all pass
`main.rs`'s date/time validation and contain no literal `NaN` token; on other
feeds they may diverge as shown by the counterexample. -/
theorem C9_prop :
    ∀ text : String, (∀ line ∈ rustLines text.data, goodLine line) →
      (NdbcLib.parse_std_met_to_df text).times
        = (NdbcMain.parse_std_met_to_df text).times ∧
      ((NdbcLib.parse_std_met_to_df text).cols).map Prod.snd
        = ((NdbcMain.parse_std_met_to_df text).cols).map Prod.snd := by
  intro text hgood
  cases hf : findHeader (rustLines text.data) with
  | none =>
      constructor
      · simp [NdbcLib.parse_std_met_to_df, NdbcMain.parse_std_met_to_df, hf]
      · simp [NdbcLib.parse_std_met_to_df, NdbcMain.parse_std_met_to_df, hf]
  | some pr =>
      obtain ⟨hdr, rest⟩ := pr
      have hrest : ∀ l ∈ rest, goodLine l :=
        fun l hl => hgood l (findHeader_rest_mem hf l hl)
      obtain ⟨heq, hnan⟩ := capture_agree rest hrest
      constructor
      · simp only [NdbcLib.parse_std_met_to_df, NdbcMain.parse_std_met_to_df,
          hf, DF.times]
        rw [heq]
      · simp only [NdbcLib.parse_std_met_to_df, NdbcMain.parse_std_met_to_df,
          hf, DF.cols, List.map_map]
        rw [heq]
        refine List.map_congr_left (fun w _ => ?_)
        simp only [Function.comp]
        exact List.map_congr_left
          (fun r hr => field_agree (hnan r hr))

/-- Witness for C9 on a concrete good feed (valid dates, a present value and a
sentinel `MM`, no `NaN`). -/
theorem C9_witness :
    (∀ line ∈ rustLines
        "#YY MM DD hh mm WDIR\n#u\n23 01 15 06 30 180\n23 01 15 07 00 MM".data,
      goodLine line) ∧
    (NdbcLib.parse_std_met_to_df
        "#YY MM DD hh mm WDIR\n#u\n23 01 15 06 30 180\n23 01 15 07 00 MM").times
      = (NdbcMain.parse_std_met_to_df
        "#YY MM DD hh mm WDIR\n#u\n23 01 15 06 30 180\n23 01 15 07 00 MM").times :=
  ⟨by decide,
   (C9_prop "#YY MM DD hh mm WDIR\n#u\n23 01 15 06 30 180\n23 01 15 07 00 MM"
      (by decide)).1⟩

/-- C10: an unparsable time token is replaced by its default before the date
check — year 0 (hence 2000), month/day 1, hour/minute 0 — so the row
`xx yy zz aa bb 180` is accepted by both variants with timestamp
2000-01-01T00:00:00Z (946684800000 ms). -/
theorem C10_prop :
    (∀ t : List Char, parseRustI32 t = none → decodeYear t = 2000) ∧
    (∀ toks : List (List Char), toks[1]?.bind parseRustU8 = none →
        (timeFields toks).2.1 = 1) ∧
    (∀ toks : List (List Char), toks[2]?.bind parseRustU8 = none →
        (timeFields toks).2.2.1 = 1) ∧
    (∀ toks : List (List Char), toks[3]?.bind parseRustU8 = none →
        (timeFields toks).2.2.2.1 = 0) ∧
    (∀ toks : List (List Char), toks[4]?.bind parseRustU8 = none →
        (timeFields toks).2.2.2.2 = 0) ∧
    NdbcLib.decodeTime (splitWs "xx yy zz aa bb 180".data) = 946684800000 ∧
    NdbcMain.decodeTime (splitWs "xx yy zz aa bb 180".data)
      = some 946684800000 ∧
    (NdbcMain.parse_std_met_to_df
        "#YY MM DD hh mm WDIR\n#yr mo dy hr mn degT\nxx yy zz aa bb 180").times
      = [946684800000] := by
  refine ⟨?_, ?_, ?_, ?_, ?_, by decide, by decide, by decide⟩
  · intro t h; simp [decodeYear, h]
  · intro toks h; simp [timeFields, h]
  · intro toks h; simp [timeFields, h]
  · intro toks h; simp [timeFields, h]
  · intro toks h; simp [timeFields, h]

/-- Witness for C10's defaulting clauses at the tokens of
`xx yy zz aa bb 180`. -/
theorem C10_witness :
    (parseRustI32 "xx".data = none ∧ decodeYear "xx".data = 2000) ∧
    ((splitWs "xx yy zz aa bb 180".data)[1]?.bind parseRustU8 = none ∧
      (timeFields (splitWs "xx yy zz aa bb 180".data)).2.1 = 1) ∧
    ((splitWs "xx yy zz aa bb 180".data)[2]?.bind parseRustU8 = none ∧
      (timeFields (splitWs "xx yy zz aa bb 180".data)).2.2.1 = 1) ∧
    ((splitWs "xx yy zz aa bb 180".data)[3]?.bind parseRustU8 = none ∧
      (timeFields (splitWs "xx yy zz aa bb 180".data)).2.2.2.1 = 0) ∧
    ((splitWs "xx yy zz aa bb 180".data)[4]?.bind parseRustU8 = none ∧
      (timeFields (splitWs "xx yy zz aa bb 180".data)).2.2.2.2 = 0) :=
  ⟨⟨by decide, C10_prop.1 "xx".data (by decide)⟩,
   ⟨by decide, C10_prop.2.1 _ (by decide)⟩,
   ⟨by decide, C10_prop.2.2.1 _ (by decide)⟩,
   ⟨by decide, C10_prop.2.2.2.1 _ (by decide)⟩,
   ⟨by decide, C10_prop.2.2.2.2.1 _ (by decide)⟩⟩
